import Mathlib

/-!
Shallow embedding of the camera-math core of `smooth-bevy-cameras`
(`src/look_angles.rs`, `src/look_transform.rs`, `src/controllers.rs`,
`src/controllers/{fps,orbit,unreal}.rs`).

Rust `f32` values are modelled as real numbers, so the floating-tolerance
statements of the specification become exact equalities over `ℝ`.
Per-frame ECS systems are modelled as per-entity state-transition
functions; a Rust `panic!`/`unwrap()` on `None` is modelled by the
function returning `none`.
-/

open Real

noncomputable section

/-- Model of `glam::Vec2` (componentwise real arithmetic). -/
@[ext]
structure Vec2 where
  x : ℝ
  y : ℝ

namespace Vec2

def zero : Vec2 := ⟨0, 0⟩

instance : Add Vec2 := ⟨fun a b => ⟨a.x + b.x, a.y + b.y⟩⟩

/-- glam multiplies `Vec2 * Vec2` componentwise. -/
instance : Mul Vec2 := ⟨fun a b => ⟨a.x * b.x, a.y * b.y⟩⟩

instance : SMul ℝ Vec2 := ⟨fun r v => ⟨r * v.x, r * v.y⟩⟩

end Vec2

/-- Model of `glam::Vec3`. -/
@[ext]
structure Vec3 where
  x : ℝ
  y : ℝ
  z : ℝ

namespace Vec3

def zero : Vec3 := ⟨0, 0, 0⟩

/-- Constant `Vec3::X`. -/
def unitX : Vec3 := ⟨1, 0, 0⟩

/-- Constant `Vec3::Y`. -/
def unitY : Vec3 := ⟨0, 1, 0⟩

/-- Constant `Vec3::Z`. -/
def unitZ : Vec3 := ⟨0, 0, 1⟩

instance : Add Vec3 := ⟨fun a b => ⟨a.x + b.x, a.y + b.y, a.z + b.z⟩⟩

instance : Sub Vec3 := ⟨fun a b => ⟨a.x - b.x, a.y - b.y, a.z - b.z⟩⟩

instance : Neg Vec3 := ⟨fun a => ⟨-a.x, -a.y, -a.z⟩⟩

/-- Scalar multiplication, `f32 * Vec3` in glam. -/
instance : SMul ℝ Vec3 := ⟨fun r v => ⟨r * v.x, r * v.y, r * v.z⟩⟩

/-- glam `Vec3::dot`. -/
def dot (a b : Vec3) : ℝ := a.x * b.x + a.y * b.y + a.z * b.z

/-- glam `Vec3::length`. -/
def length (v : Vec3) : ℝ := Real.sqrt (v.dot v)

/-- glam `Vec3::cross`. -/
def cross (a b : Vec3) : Vec3 :=
  ⟨a.y * b.z - a.z * b.y, a.z * b.x - a.x * b.z, a.x * b.y - a.y * b.x⟩

open Classical in
/-- glam `Vec3::try_normalize`: `None` when the vector cannot be normalized
(zero length; in the real-number model exactly the zero vector). -/
def tryNormalize (v : Vec3) : Option Vec3 :=
  if v = Vec3.zero then none else some ((1 / v.length) • v)

/-- glam `Vec3::angle_between`:
`self.dot(rhs).div(self.length_squared().mul(rhs.length_squared()).sqrt()).acos()`. -/
def angle_between (a b : Vec3) : ℝ :=
  Real.arccos (a.dot b / Real.sqrt (a.dot a * b.dot b))

end Vec3

/-- Rust float truncation (`f32` division rounds the quotient toward zero in
the remainder operator). -/
def rustTrunc (x : ℝ) : ℝ := if 0 ≤ x then (⌊x⌋ : ℝ) else (⌈x⌉ : ℝ)

/-- Rust `%` on floats: remainder with the sign of the dividend,
`a - b * trunc (a / b)`. -/
def rustFmod (a b : ℝ) : ℝ := a - b * rustTrunc (a / b)

/-! `src/look_angles.rs` -/

/-- Pair of yaw/pitch look angles (`LookAngles` in `look_angles.rs`); the
fields are private in the Rust code and kept in range by the setters. -/
@[ext]
structure LookAngles where
  yaw : ℝ
  pitch : ℝ

/-- Value of the local `up_eps` in `LookAngles::set_pitch`. -/
def up_eps : ℝ := 0.01

/-- Matrix-vector product `Mat3::from_rotation_y(angle) * v`; glam's
rotation matrix about the y axis applied to `v`. -/
def mat3_from_rotation_y (angle : ℝ) (v : Vec3) : Vec3 :=
  ⟨Real.cos angle * v.x + Real.sin angle * v.z,
   v.y,
   -Real.sin angle * v.x + Real.cos angle * v.z⟩

/-- Matrix-vector product `Mat3::from_axis_angle(axis, angle) * v` for the
normalized axes used in `look_angles.rs` (Rodrigues rotation; glam requires
the axis to be normalized). -/
def mat3_from_axis_angle (axis : Vec3) (angle : ℝ) (v : Vec3) : Vec3 :=
  (Real.cos angle) • v + (Real.sin angle) • axis.cross v +
    ((1 - Real.cos angle) * axis.dot v) • axis

open Classical in
/-- Free function `yaw_and_pitch_from_vector` of `look_angles.rs`. -/
def yaw_and_pitch_from_vector (v : Vec3) : ℝ × ℝ :=
  let y := Vec3.unitY
  let z := Vec3.unitZ
  let v_xz : Vec3 := ⟨v.x, 0, v.z⟩
  if v_xz = Vec3.zero then
    if v.dot y > 0 then (0, π / 2) else (0, -(π / 2))
  else
    let yaw0 := v_xz.angle_between z
    let yaw := if v.x < 0 then -yaw0 else yaw0
    let pitch0 := v_xz.angle_between v
    let pitch := if v.y < 0 then -pitch0 else pitch0
    (yaw, pitch)

/-- Free function `unit_vector_from_yaw_and_pitch` of `look_angles.rs`. -/
def unit_vector_from_yaw_and_pitch (yaw pitch : ℝ) : Vec3 :=
  let ray := mat3_from_rotation_y yaw Vec3.unitZ
  let pitch_axis := ray.cross Vec3.unitY
  mat3_from_axis_angle pitch_axis pitch ray

namespace LookAngles

/-- Derived `Default` of `LookAngles`. -/
def default : LookAngles := ⟨0, 0⟩

/-- Method `LookAngles::set_yaw`: `self.yaw = yaw % (2.0 * PI)`. -/
def set_yaw (a : LookAngles) (yaw : ℝ) : LookAngles :=
  { a with yaw := rustFmod yaw (2 * π) }

def get_yaw (a : LookAngles) : ℝ := a.yaw

/-- Method `LookAngles::add_yaw`. -/
def add_yaw (a : LookAngles) (delta : ℝ) : LookAngles :=
  a.set_yaw (a.get_yaw + delta)

/-- Method `LookAngles::set_pitch`:
`self.pitch = pitch.min(PI / 2.0 - up_eps).max(-PI / 2.0 + up_eps)`. -/
def set_pitch (a : LookAngles) (pitch : ℝ) : LookAngles :=
  { a with pitch := max (min pitch (π / 2 - up_eps)) (-(π / 2) + up_eps) }

def get_pitch (a : LookAngles) : ℝ := a.pitch

/-- Method `LookAngles::add_pitch`. -/
def add_pitch (a : LookAngles) (delta : ℝ) : LookAngles :=
  a.set_pitch (a.get_pitch + delta)

/-- Method `LookAngles::set_direction`. -/
def set_direction (a : LookAngles) (v : Vec3) : LookAngles :=
  let yp := yaw_and_pitch_from_vector v
  (a.set_yaw yp.1).set_pitch yp.2

/-- Associated function `LookAngles::from_vector`. -/
def from_vector (v : Vec3) : LookAngles := LookAngles.default.set_direction v

/-- Method `LookAngles::unit_vector`. -/
def unit_vector (a : LookAngles) : Vec3 :=
  unit_vector_from_yaw_and_pitch a.yaw a.pitch

/-- Condition under which `LookAngles::assert_not_looking_up` panics (the
`relative_eq!` comparison is modelled as exact equality over `ℝ`). -/
def is_looking_up (a : LookAngles) : Prop :=
  |a.unit_vector.dot Vec3.unitY| = 1

end LookAngles

/-! `src/look_transform.rs` -/

/-- Component `LookTransform`: an eye and the target it is looking at. -/
@[ext]
structure LookTransform where
  eye : Vec3
  target : Vec3
  up : Vec3

namespace LookTransform

/-- Manual `Default` impl of `LookTransform`. -/
def default : LookTransform := ⟨Vec3.zero, Vec3.zero, Vec3.unitY⟩

/-- Associated function `LookTransform::new`. -/
def new (eye target up : Vec3) : LookTransform := ⟨eye, target, up⟩

/-- Method `LookTransform::radius`. -/
def radius (t : LookTransform) : ℝ := (t.target - t.eye).length

/-- Method `LookTransform::look_direction`. -/
def look_direction (t : LookTransform) : Option Vec3 :=
  (t.target - t.eye).tryNormalize

end LookTransform

/-- Component `Smoother`: exponential smoothing filter over a
`LookTransform`. -/
structure Smoother where
  lag_weight : ℝ
  lerp_tfm : Option LookTransform
  enabled : Bool

namespace Smoother

/-- Manual `Default` impl of `Smoother` (`look_transform.rs` lines 79-87):
note that `lerp_tfm` is initialized to `Some(LookTransform::default())`. -/
def default : Smoother :=
  { lag_weight := 0.9, lerp_tfm := some LookTransform.default, enabled := true }

/-- Associated function `Smoother::new`. -/
def new (lag_weight : ℝ) : Smoother :=
  { lag_weight := lag_weight, lerp_tfm := none, enabled := true }

/-- Method `Smoother::reset`. -/
def reset (s : Smoother) : Smoother := { s with lerp_tfm := none }

/-- Method `Smoother::set_enabled` (crate-private): stores the flag and, on
enable, resets the smoother state. -/
def set_enabled (s : Smoother) (enabled : Bool) : Smoother :=
  let s1 := { s with enabled := enabled }
  if s1.enabled then s1.reset else s1

/-- Method `Smoother::set_lag_weight`: stores the given weight, nothing
else. -/
def set_lag_weight (s : Smoother) (lag_weight : ℝ) : Smoother :=
  { s with lag_weight := lag_weight }

/-- Conjunction of the two `debug_assert!`s at the top of
`Smoother::smooth_transform` (checked only in debug builds, at use time). -/
def smooth_transform_debug_asserts (s : Smoother) : Prop :=
  0 ≤ s.lag_weight ∧ s.lag_weight < 1

/-- Method `Smoother::smooth_transform`; `&mut self` is modelled by also
returning the updated smoother. -/
def smooth_transform (s : Smoother) (new_tfm : LookTransform) :
    LookTransform × Smoother :=
  let old_lerp_tfm := s.lerp_tfm.getD new_tfm
  let lead_weight := 1 - s.lag_weight
  let lerp_tfm : LookTransform :=
    { eye := s.lag_weight • old_lerp_tfm.eye + lead_weight • new_tfm.eye,
      target := s.lag_weight • old_lerp_tfm.target + lead_weight • new_tfm.target,
      up := new_tfm.up }
  (lerp_tfm, { s with lerp_tfm := some lerp_tfm })

end Smoother

/-- Per-camera step of `look_transform_system` (`look_transform.rs` lines
134-145). The `From<LookTransform> for Transform` conversion
(`eye_look_at_target_transform`) is kept abstract as the parameter `conv`;
`scene` is the camera's current scene-graph `Transform`. The system writes
`conv` of the smoothed transform in the `Some(s) if s.enabled` arm and
executes `()` in the `_` arm. -/
def look_transform_system_step {T : Type} (conv : LookTransform → T)
    (look_transform : LookTransform) (scene : T) (smoother : Option Smoother) :
    T × Option Smoother :=
  match smoother with
  | some s =>
    if s.enabled then
      let out := s.smooth_transform look_transform
      (conv out.1, some out.2)
    else (scene, some s)
  | none => (scene, none)

/-! `src/controllers.rs` -/

/-- Carrier for the assignment `look_tfm.enabled = controller.enabled` in
`controllers.rs`: `LookTransform` (`look_transform.rs` lines 25-29) has no
`enabled` field, so that assignment does not type-check against the crate's
own component; we model it on a `LookTransform` extended with the field the
line refers to. -/
structure LookTransformWithEnabled extends LookTransform where
  enabled : Bool

/-- Per-entity step of the `on_controller_enabled_changed` system generated
by `define_on_controller_enabled_changed!` (`controllers.rs` lines 4-13),
run when the controller component changed. Its whole body is
`look_tfm.enabled = controller.enabled`; the query is
`Query<(&mut LookTransform, &C), Changed<C>>`, so the entity's paired
`Smoother` is neither read nor written by this system. -/
def on_controller_enabled_changed_step (controller_enabled : Bool)
    (look_tfm : LookTransformWithEnabled) (smoother : Smoother) :
    LookTransformWithEnabled × Smoother :=
  ({ look_tfm with enabled := controller_enabled }, smoother)

/-! `src/controllers/fps.rs` -/

namespace fps

/-- Component `FpsCameraController`. -/
structure FpsCameraController where
  enabled : Bool
  mouse_rotate_sensitivity : Vec2
  translate_sensitivity : ℝ
  smoothing_weight : ℝ

/-- Manual `Default` impl of `FpsCameraController`. -/
def FpsCameraController.default : FpsCameraController :=
  { enabled := true, mouse_rotate_sensitivity := ⟨0.002, 0.002⟩,
    translate_sensitivity := 0.5, smoothing_weight := 0.9 }

/-- Events of the FPS controller. -/
inductive ControlEvent where
  | Rotate (delta : Vec2)
  | TranslateEye (delta : Vec3)

/-- Per-frame pressed state of the six keys read by
`fps::default_input_map`. -/
structure KeyboardState where
  w : Bool
  a : Bool
  s : Bool
  d : Bool
  lshift : Bool
  space : Bool

/-- Key/direction pairs iterated by `fps::default_input_map`, in source
order: `(W, Z), (A, X), (S, -Z), (D, -X), (LShift, -Y), (Space, Y)`. -/
def key_dirs (k : KeyboardState) : List (Bool × Vec3) :=
  [(k.w, Vec3.unitZ), (k.a, Vec3.unitX), (k.s, -Vec3.unitZ),
   (k.d, -Vec3.unitX), (k.lshift, -Vec3.unitY), (k.space, Vec3.unitY)]

/-- System `fps::default_input_map` for the controlled camera. Returns the
emitted `ControlEvent`s together with the mouse-motion events left unread
by this system's `EventReader` cursor: on `!enabled` the Rust function
returns before iterating `mouse_motion_events`, so those events stay
pending for the reader's next run. -/
def default_input_map (c : FpsCameraController)
    (mouse_motion_events : List Vec2) (keyboard : KeyboardState) :
    List ControlEvent × List Vec2 :=
  if c.enabled then
    let cursor_delta := mouse_motion_events.foldl (fun acc d => acc + d) Vec2.zero
    let translations := (key_dirs keyboard).filterMap fun kd =>
      if kd.1 then some (ControlEvent.TranslateEye (c.translate_sensitivity • kd.2))
      else none
    (ControlEvent.Rotate (c.mouse_rotate_sensitivity * cursor_delta) :: translations, [])
  else ([], mouse_motion_events)

/-- Body of the event loop in `fps::control_system`; the fold state is the
pair of the mutated `look_angles` and `transform.eye`. The `rot_x`,
`rot_y`, `rot_z` axes are computed once before the loop
(`Quat::from_axis_angle(Vec3::Y, yaw)` applied to a vector equals the
rotation `Mat3::from_rotation_y(yaw)`). -/
def apply_event (rot_x rot_y rot_z : Vec3) (st : LookAngles × Vec3)
    (e : ControlEvent) : LookAngles × Vec3 :=
  match e with
  | .Rotate delta => ((st.1.add_yaw (-delta.x)).add_pitch (-delta.y), st.2)
  | .TranslateEye delta =>
    (st.1, st.2 + (delta.x • rot_x + delta.y • rot_y + delta.z • rot_z))

open Classical in
/-- Per-frame step of `fps::control_system` on the controlled camera.
`none` models a panic: either the `.unwrap()` of
`transform.look_direction()` on line 154, or `assert_not_looking_up`. In
the disabled branch the Rust code drains the control events and mutates
nothing. -/
def control_system_step (c : FpsCameraController) (events : List ControlEvent)
    (transform : LookTransform) : Option LookTransform :=
  if c.enabled then
    match transform.look_direction with
    | none => none
    | some look_vector =>
      let look_angles := LookAngles.from_vector look_vector
      let rot_x := mat3_from_rotation_y look_angles.get_yaw Vec3.unitX
      let rot_y := mat3_from_rotation_y look_angles.get_yaw Vec3.unitY
      let rot_z := mat3_from_rotation_y look_angles.get_yaw Vec3.unitZ
      let st := events.foldl (apply_event rot_x rot_y rot_z) (look_angles, transform.eye)
      if st.1.is_looking_up then none
      else
        let t1 : LookTransform := { transform with eye := st.2 }
        some { t1 with target := t1.eye + t1.radius • st.1.unit_vector }
  else some transform

end fps

/-! `src/controllers/orbit.rs` -/

namespace orbit

/-- Events of the orbit controller. -/
inductive ControlEvent where
  | Orbit (delta : Vec2)
  | TranslateTarget (delta : Vec2)
  | Zoom (scalar : ℝ)

/-- State of an orbit camera. `orbit.rs` reads and writes
`transform.scale` on the `LookTransform` (lines 118, 199, 213), a field
that does not exist on `LookTransform` in `look_transform.rs`; it is
modelled as a scalar adjoined to the transform. -/
structure OrbitState where
  transform : LookTransform
  scale : ℝ

/-- Fold state of the event loop in `orbit::control_system`. -/
structure FoldState where
  look_angles : LookAngles
  target : Vec3
  radius_scalar : ℝ

/-- Body of the event loop in `orbit::control_system`. `scene_rotation`
abstracts `scene_transform.rotation *`; `scale` is `transform.scale`,
constant during the loop (only written after it). -/
def apply_event (dt : ℝ) (scene_rotation : Vec3 → Vec3)
    (is_orthographic : Bool) (scale : ℝ) (acc : FoldState)
    (e : ControlEvent) : FoldState :=
  match e with
  | .Orbit delta =>
    { acc with look_angles := (acc.look_angles.add_yaw (dt * -delta.x)).add_pitch (dt * delta.y) }
  | .TranslateTarget delta =>
    let right_dir := scene_rotation (-Vec3.unitX)
    let up_dir := scene_rotation Vec3.unitY
    let translation := (dt * delta.x) • right_dir + (dt * delta.y) • up_dir
    let translation := if is_orthographic then (scale * 0.5) • translation else translation
    { acc with target := acc.target + translation }
  | .Zoom scalar => { acc with radius_scalar := acc.radius_scalar * scalar }

open Classical in
/-- Per-frame step of `orbit::control_system` on the first camera whose
controller is enabled (`.find(|c| c.0.enabled)`). `none` models a panic:
the `.unwrap()` of `transform.look_direction()` on line 183, or
`assert_not_looking_up`. In the non-orthographic branch the zoom scalar is
applied as `(radius_scalar * transform.radius()).min(1000000.0).max(0.001)`
before the eye is repositioned. -/
def control_system_step (dt : ℝ) (scene_rotation : Vec3 → Vec3)
    (is_orthographic : Bool) (events : List ControlEvent) (st : OrbitState) :
    Option OrbitState :=
  match st.transform.look_direction with
  | none => none
  | some look_dir =>
    let init : FoldState :=
      { look_angles := LookAngles.from_vector (-look_dir),
        target := st.transform.target, radius_scalar := 1 }
    let fin := events.foldl (apply_event dt scene_rotation is_orthographic st.scale) init
    if fin.look_angles.is_looking_up then none
    else if is_orthographic then
      let t1 : LookTransform := { st.transform with target := fin.target }
      some { transform := { t1 with eye := t1.target + t1.radius • fin.look_angles.unit_vector },
             scale := st.scale * fin.radius_scalar }
    else
      let t1 : LookTransform := { st.transform with target := fin.target }
      let new_radius := max (min (fin.radius_scalar * t1.radius) 1000000) 0.001
      some { transform := { t1 with eye := t1.target + new_radius • fin.look_angles.unit_vector },
             scale := st.scale }

end orbit

/-! `src/controllers/unreal.rs` -/

namespace unreal

/-- Component `UnrealCameraController` (only the fields the control system
reads are listed in full; sensitivities as in the source). -/
structure UnrealCameraController where
  enabled : Bool
  rotate_sensitivity : Vec2
  mouse_translate_sensitivity : Vec2
  wheel_translate_sensitivity : ℝ
  keyboard_mvmt_sensitivity : ℝ
  keyboard_mvmt_wheel_sensitivity : ℝ
  smoothing_weight : ℝ

/-- Manual `Default` impl of `UnrealCameraController`. -/
def UnrealCameraController.default : UnrealCameraController :=
  { enabled := true, rotate_sensitivity := ⟨0.002, 0.002⟩,
    mouse_translate_sensitivity := ⟨0.02, 0.02⟩,
    wheel_translate_sensitivity := 1.0, keyboard_mvmt_sensitivity := 0.1,
    keyboard_mvmt_wheel_sensitivity := 0.1, smoothing_weight := 0.7 }

/-- Events of the unreal controller. -/
inductive ControlEvent where
  | Locomotion (delta : Vec2)
  | Rotate (delta : Vec2)
  | TranslateEye (delta : Vec2)

/-- Body of the event loop in `unreal::control_system`; the fold state is
the pair of the mutated `look_angles` and `transform.eye`. Unlike the FPS
controller, `TranslateEye` recomputes `yaw_rot` from the current
`look_angles` inside the loop. -/
def apply_event (look_vector : Vec3) (st : LookAngles × Vec3)
    (e : ControlEvent) : LookAngles × Vec3 :=
  match e with
  | .Locomotion delta => (st.1.add_yaw (-delta.x), st.2 + delta.y • look_vector)
  | .Rotate delta => ((st.1.add_yaw (-delta.x)).add_pitch (-delta.y), st.2)
  | .TranslateEye delta =>
    let rot_x := mat3_from_rotation_y st.1.get_yaw Vec3.unitX
    (st.1, st.2 - (delta.x • rot_x - ⟨0, delta.y, 0⟩))

open Classical in
/-- Per-frame step of `unreal::control_system` on the controlled camera.
On a degenerate look direction the Rust code hits `None => return`
(lines 249-255): the frame is skipped with no mutation. `none` models the
`assert_not_looking_up` panic only. -/
def control_system_step (c : UnrealCameraController)
    (events : List ControlEvent) (transform : LookTransform) :
    Option LookTransform :=
  if c.enabled then
    match transform.look_direction with
    | none => some transform
    | some look_vector =>
      let st := events.foldl (apply_event look_vector)
        (LookAngles.from_vector look_vector, transform.eye)
      if st.1.is_looking_up then none
      else
        let t1 : LookTransform := { transform with eye := st.2 }
        some { t1 with target := t1.eye + t1.radius • st.1.unit_vector }
  else some transform

end unreal

/-! Sequences of pitch-relevant `LookAngles` operations, for the clamp
invariant. -/

/-- One public `LookAngles` call that can touch the pitch field. -/
inductive LookAnglesOp where
  | addPitch (delta : ℝ)
  | setPitch (pitch : ℝ)
  | setDirection (v : Vec3)

/-- Application of one call. -/
def LookAngles.applyOp (a : LookAngles) : LookAnglesOp → LookAngles
  | .addPitch delta => a.add_pitch delta
  | .setPitch pitch => a.set_pitch pitch
  | .setDirection v => a.set_direction v

/-- Application of a call sequence, in order. -/
def LookAngles.applyOps (a : LookAngles) (ops : List LookAnglesOp) : LookAngles :=
  ops.foldl LookAngles.applyOp a

/-- Lower end of the pitch clamp in `LookAngles::set_pitch`. -/
def pitch_lo : ℝ := -(π / 2) + up_eps

/-- Upper end of the pitch clamp in `LookAngles::set_pitch`. -/
def pitch_hi : ℝ := π / 2 - up_eps

/-! Helper lemmas. -/

theorem vec2_add_def (a b : Vec2) : a + b = ⟨a.x + b.x, a.y + b.y⟩ := rfl

theorem vec2_mul_def (a b : Vec2) : a * b = ⟨a.x * b.x, a.y * b.y⟩ := rfl

theorem vec3_add_def (a b : Vec3) : a + b = ⟨a.x + b.x, a.y + b.y, a.z + b.z⟩ := rfl

theorem vec3_sub_def (a b : Vec3) : a - b = ⟨a.x - b.x, a.y - b.y, a.z - b.z⟩ := rfl

theorem vec3_neg_def (a : Vec3) : -a = ⟨-a.x, -a.y, -a.z⟩ := rfl

theorem vec3_smul_def (r : ℝ) (v : Vec3) : r • v = ⟨r * v.x, r * v.y, r * v.z⟩ := rfl

/-- Unfolded closed form of `unit_vector_from_yaw_and_pitch`: the standard
spherical parameterization. -/
theorem unit_vector_from_yaw_and_pitch_eq (yaw pitch : ℝ) :
    unit_vector_from_yaw_and_pitch yaw pitch =
      ⟨Real.cos pitch * Real.sin yaw, Real.sin pitch,
       Real.cos pitch * Real.cos yaw⟩ := by
  simp only [unit_vector_from_yaw_and_pitch, mat3_from_rotation_y,
    mat3_from_axis_angle, Vec3.cross, Vec3.dot, Vec3.unitZ, Vec3.unitY,
    vec3_smul_def, vec3_add_def, Vec3.mk.injEq]
  refine ⟨by ring, ?_, by ring⟩
  linear_combination Real.sin pitch * Real.sin_sq_add_cos_sq yaw

theorem up_eps_pos : (0 : ℝ) < up_eps := by norm_num [up_eps]

theorem pitch_lo_le_pitch_hi : pitch_lo ≤ pitch_hi := by
  have h := Real.pi_gt_three
  simp only [pitch_lo, pitch_hi, up_eps]
  linarith

theorem LookAngles.set_pitch_pitch_mem (a : LookAngles) (p : ℝ) :
    (a.set_pitch p).pitch ∈ Set.Icc pitch_lo pitch_hi := by
  constructor
  · exact le_max_right _ _
  · exact max_le (le_trans (min_le_right _ _) le_rfl) pitch_lo_le_pitch_hi

theorem LookAngles.add_pitch_pitch_mem (a : LookAngles) (d : ℝ) :
    (a.add_pitch d).pitch ∈ Set.Icc pitch_lo pitch_hi :=
  a.set_pitch_pitch_mem _

theorem LookAngles.set_direction_pitch_mem (a : LookAngles) (v : Vec3) :
    (a.set_direction v).pitch ∈ Set.Icc pitch_lo pitch_hi :=
  LookAngles.set_pitch_pitch_mem _ _

theorem LookAngles.from_vector_pitch_mem (v : Vec3) :
    (LookAngles.from_vector v).pitch ∈ Set.Icc pitch_lo pitch_hi :=
  LookAngles.set_direction_pitch_mem _ _

theorem LookAngles.applyOp_pitch_mem (a : LookAngles) (o : LookAnglesOp) :
    (a.applyOp o).pitch ∈ Set.Icc pitch_lo pitch_hi := by
  cases o with
  | addPitch d => exact a.add_pitch_pitch_mem d
  | setPitch p => exact a.set_pitch_pitch_mem p
  | setDirection v => exact a.set_direction_pitch_mem v

theorem cos_pos_of_pitch_mem {p : ℝ} (h : p ∈ Set.Icc pitch_lo pitch_hi) :
    0 < Real.cos p := by
  apply Real.cos_pos_of_mem_Ioo
  have hlo : -(π / 2) < pitch_lo := by
    simp only [pitch_lo, up_eps]; norm_num
  have hhi : pitch_hi < π / 2 := by
    simp only [pitch_hi, up_eps]; norm_num
  exact ⟨lt_of_lt_of_le hlo h.1, lt_of_le_of_lt h.2 hhi⟩

theorem LookAngles.unit_vector_eq (a : LookAngles) :
    a.unit_vector =
      ⟨Real.cos a.pitch * Real.sin a.yaw, Real.sin a.pitch,
       Real.cos a.pitch * Real.cos a.yaw⟩ :=
  unit_vector_from_yaw_and_pitch_eq a.yaw a.pitch

theorem LookAngles.unit_vector_dot_self (a : LookAngles) :
    a.unit_vector.dot a.unit_vector = 1 := by
  rw [a.unit_vector_eq]
  simp only [Vec3.dot]
  linear_combination (Real.cos a.pitch) ^ 2 * Real.sin_sq_add_cos_sq a.yaw +
    Real.sin_sq_add_cos_sq a.pitch

theorem LookAngles.unit_vector_length (a : LookAngles) :
    a.unit_vector.length = 1 := by
  rw [Vec3.length, a.unit_vector_dot_self, Real.sqrt_one]

theorem LookAngles.unit_vector_dot_unitY (a : LookAngles) :
    a.unit_vector.dot Vec3.unitY = Real.sin a.pitch := by
  rw [a.unit_vector_eq]
  simp [Vec3.dot, Vec3.unitY]

theorem LookAngles.not_looking_up_of_pitch_mem {a : LookAngles}
    (h : a.pitch ∈ Set.Icc pitch_lo pitch_hi) : ¬a.is_looking_up := by
  intro habs
  rw [LookAngles.is_looking_up, a.unit_vector_dot_unitY] at habs
  have hcos : 0 < Real.cos a.pitch := cos_pos_of_pitch_mem h
  have hsq : Real.sin a.pitch ^ 2 = 1 := by
    have := abs_eq (le_of_lt one_pos) |>.mp habs
    rcases this with h1 | h1 <;> rw [h1] <;> norm_num
  have := Real.sin_sq_add_cos_sq a.pitch
  nlinarith

theorem LookAngles.not_parallel_up_of_pitch_mem {a : LookAngles}
    (h : a.pitch ∈ Set.Icc pitch_lo pitch_hi) :
    ¬(a.unit_vector.x = 0 ∧ a.unit_vector.z = 0) := by
  rw [a.unit_vector_eq]
  rintro ⟨hx, hz⟩
  have hcos : 0 < Real.cos a.pitch := cos_pos_of_pitch_mem h
  have hsy : Real.sin a.yaw = 0 := by
    rcases mul_eq_zero.mp hx with h1 | h1
    · exact absurd h1 (ne_of_gt hcos)
    · exact h1
  have hcy : Real.cos a.yaw = 0 := by
    rcases mul_eq_zero.mp hz with h1 | h1
    · exact absurd h1 (ne_of_gt hcos)
    · exact h1
  have := Real.sin_sq_add_cos_sq a.yaw
  rw [hsy, hcy] at this
  norm_num at this

theorem LookAngles.applyOps_pitch_mem (a : LookAngles) (ops : List LookAnglesOp)
    (h : a.pitch ∈ Set.Icc pitch_lo pitch_hi ∨ ops ≠ []) :
    (a.applyOps ops).pitch ∈ Set.Icc pitch_lo pitch_hi := by
  induction ops generalizing a with
  | nil =>
    simp only [LookAngles.applyOps, List.foldl_nil]
    exact h.resolve_right (by simp)
  | cons o t ih =>
    simp only [LookAngles.applyOps, List.foldl_cons]
    exact ih (a.applyOp o) (Or.inl (a.applyOp_pitch_mem o))

/-- C1: starting from a `LookAngles` whose pitch is in the clamp interval
(as every publicly constructible value is) or after at least one
pitch-touching call, any sequence of `add_pitch` / `set_pitch` /
`set_direction` calls leaves the stored pitch inside
`[-π/2 + ε, π/2 - ε]` with `ε = 0.01`, so `unit_vector` never returns a
vector parallel to the up axis (its horizontal part never vanishes and the
`assert_not_looking_up` condition never holds). -/
theorem C1_pitch_clamp_invariant (a : LookAngles) (ops : List LookAnglesOp)
    (h : a.pitch ∈ Set.Icc pitch_lo pitch_hi ∨ ops ≠ []) :
    (a.applyOps ops).pitch ∈ Set.Icc pitch_lo pitch_hi ∧
      ¬((a.applyOps ops).unit_vector.x = 0 ∧ (a.applyOps ops).unit_vector.z = 0) ∧
      ¬(a.applyOps ops).is_looking_up := by
  have hmem := a.applyOps_pitch_mem ops h
  exact ⟨hmem, LookAngles.not_parallel_up_of_pitch_mem hmem,
    LookAngles.not_looking_up_of_pitch_mem hmem⟩

/-- Witness for C1 at a concrete input: one `add_pitch 100` call on the
default angles. -/
theorem C1_pitch_clamp_invariant_witness :
    ([LookAnglesOp.addPitch 100] ≠ ([] : List LookAnglesOp)) ∧
      ((LookAngles.default.applyOps [LookAnglesOp.addPitch 100]).pitch ∈
          Set.Icc pitch_lo pitch_hi ∧
        ¬((LookAngles.default.applyOps [LookAnglesOp.addPitch 100]).unit_vector.x = 0 ∧
            (LookAngles.default.applyOps [LookAnglesOp.addPitch 100]).unit_vector.z = 0) ∧
        ¬(LookAngles.default.applyOps [LookAnglesOp.addPitch 100]).is_looking_up) :=
  ⟨by simp, C1_pitch_clamp_invariant LookAngles.default [LookAnglesOp.addPitch 100]
    (Or.inr (by simp))⟩

/-- C2: for every unit vector whose horizontal projection is nonzero (in
particular every unit vector whose pitch lies strictly inside the clamp
interval), `unit_vector_from_yaw_and_pitch` inverts
`yaw_and_pitch_from_vector` exactly in the real-number model. -/
theorem C2_round_trip (v : Vec3) (hlen : v.length = 1)
    (hxz : ¬(v.x = 0 ∧ v.z = 0)) :
    unit_vector_from_yaw_and_pitch (yaw_and_pitch_from_vector v).1
      (yaw_and_pitch_from_vector v).2 = v := by
  obtain ⟨x, y, z⟩ := v
  simp only at hxz
  have h0 : (0 : ℝ) ≤ x * x + y * y + z * z := by nlinarith [mul_self_nonneg x, mul_self_nonneg y, mul_self_nonneg z]
  have hsq1 : Real.sqrt (x * x + y * y + z * z) = 1 := by
    simpa [Vec3.length, Vec3.dot] using hlen
  have hdot : x * x + y * y + z * z = 1 := by
    calc x * x + y * y + z * z
        = Real.sqrt (x * x + y * y + z * z) ^ 2 := (Real.sq_sqrt h0).symm
      _ = 1 := by rw [hsq1]; norm_num
  have hr2pos : 0 < x * x + z * z := by
    rcases not_and_or.mp hxz with hx | hz
    · have := mul_self_pos.mpr hx
      nlinarith [mul_self_nonneg z]
    · have := mul_self_pos.mpr hz
      nlinarith [mul_self_nonneg x]
  have hspos : 0 < Real.sqrt (x * x + z * z) := Real.sqrt_pos.mpr hr2pos
  have hs2 : Real.sqrt (x * x + z * z) ^ 2 = x * x + z * z := Real.sq_sqrt hr2pos.le
  have hr2le1 : x * x + z * z ≤ 1 := by nlinarith [mul_self_nonneg y]
  have hsle1 : Real.sqrt (x * x + z * z) ≤ 1 := by
    rw [show (1 : ℝ) = Real.sqrt 1 by rw [Real.sqrt_one]]
    exact Real.sqrt_le_sqrt hr2le1
  have hvxz : (⟨x, 0, z⟩ : Vec3) ≠ Vec3.zero := by
    intro h
    exact hxz ⟨congrArg Vec3.x h, congrArg Vec3.z h⟩
  have hpair : yaw_and_pitch_from_vector ⟨x, y, z⟩ =
      (if x < 0 then -Real.arccos (z / Real.sqrt (x * x + z * z))
        else Real.arccos (z / Real.sqrt (x * x + z * z)),
       if y < 0 then -Real.arccos (Real.sqrt (x * x + z * z))
        else Real.arccos (Real.sqrt (x * x + z * z))) := by
    simp only [yaw_and_pitch_from_vector, Vec3.angle_between, Vec3.dot,
      Vec3.unitY, Vec3.unitZ, hvxz, if_false, mul_zero, zero_mul, mul_one,
      one_mul, add_zero, zero_add, hdot, Real.div_sqrt]
  have hyaw : (yaw_and_pitch_from_vector ⟨x, y, z⟩).1 =
      if x < 0 then -Real.arccos (z / Real.sqrt (x * x + z * z))
        else Real.arccos (z / Real.sqrt (x * x + z * z)) := by
    rw [hpair]
  have hpitch : (yaw_and_pitch_from_vector ⟨x, y, z⟩).2 =
      if y < 0 then -Real.arccos (Real.sqrt (x * x + z * z))
        else Real.arccos (Real.sqrt (x * x + z * z)) := by
    rw [hpair]
  rw [hyaw, hpitch, unit_vector_from_yaw_and_pitch_eq]
  have hzabs : |z| ≤ Real.sqrt (x * x + z * z) := by
    rw [← Real.sqrt_sq_eq_abs]
    apply Real.sqrt_le_sqrt
    nlinarith [mul_self_nonneg x]
  have hzd1 : z / Real.sqrt (x * x + z * z) ≤ 1 :=
    (div_le_one hspos).mpr ((abs_le.mp hzabs).2)
  have hzd2 : -1 ≤ z / Real.sqrt (x * x + z * z) := by
    rw [le_div_iff₀ hspos]
    have := (abs_le.mp hzabs).1
    linarith
  have hcp : Real.cos (if y < 0 then -Real.arccos (Real.sqrt (x * x + z * z))
      else Real.arccos (Real.sqrt (x * x + z * z))) = Real.sqrt (x * x + z * z) := by
    split_ifs with hy
    · rw [Real.cos_neg]
      exact Real.cos_arccos (by linarith [hspos]) hsle1
    · exact Real.cos_arccos (by linarith [hspos]) hsle1
  have hsp1 : 1 - Real.sqrt (x * x + z * z) ^ 2 = y * y := by
    rw [hs2]; linarith [hdot]
  have hsp : Real.sin (if y < 0 then -Real.arccos (Real.sqrt (x * x + z * z))
      else Real.arccos (Real.sqrt (x * x + z * z))) = y := by
    split_ifs with hy
    · rw [Real.sin_neg, Real.sin_arccos, hsp1, Real.sqrt_mul_self_eq_abs,
        abs_of_neg hy, neg_neg]
    · rw [Real.sin_arccos, hsp1, Real.sqrt_mul_self_eq_abs,
        abs_of_nonneg (not_lt.mp hy)]
  have hcy : Real.cos (if x < 0 then -Real.arccos (z / Real.sqrt (x * x + z * z))
      else Real.arccos (z / Real.sqrt (x * x + z * z))) =
      z / Real.sqrt (x * x + z * z) := by
    split_ifs with hx
    · rw [Real.cos_neg]
      exact Real.cos_arccos hzd2 hzd1
    · exact Real.cos_arccos hzd2 hzd1
  have hsy1 : 1 - (z / Real.sqrt (x * x + z * z)) ^ 2 =
      (x / Real.sqrt (x * x + z * z)) ^ 2 := by
    rw [div_pow, div_pow, hs2]
    field_simp
    ring
  have hsy : Real.sin (if x < 0 then -Real.arccos (z / Real.sqrt (x * x + z * z))
      else Real.arccos (z / Real.sqrt (x * x + z * z))) =
      x / Real.sqrt (x * x + z * z) := by
    split_ifs with hx
    · rw [Real.sin_neg, Real.sin_arccos, hsy1, Real.sqrt_sq_eq_abs, abs_div,
        abs_of_pos hspos, abs_of_neg hx]
      ring
    · rw [Real.sin_arccos, hsy1, Real.sqrt_sq_eq_abs, abs_div,
        abs_of_pos hspos, abs_of_nonneg (not_lt.mp hx)]
  rw [hcp, hsp, hcy, hsy]
  have hsne : Real.sqrt (x * x + z * z) ≠ 0 := ne_of_gt hspos
  simp only [Vec3.mk.injEq]
  refine ⟨?_, trivial, ?_⟩
  · rw [mul_comm, div_mul_cancel₀ _ hsne]
  · rw [mul_comm, div_mul_cancel₀ _ hsne]

/-- Witness for C2 at the concrete unit vector `(0, 0, 1)`. -/
theorem C2_round_trip_witness :
    (Vec3.length ⟨0, 0, 1⟩ = 1 ∧ ¬((0 : ℝ) = 0 ∧ (1 : ℝ) = 0)) ∧
      unit_vector_from_yaw_and_pitch
        (yaw_and_pitch_from_vector ⟨0, 0, 1⟩).1
        (yaw_and_pitch_from_vector ⟨0, 0, 1⟩).2 = ⟨0, 0, 1⟩ := by
  have h1 : Vec3.length ⟨0, 0, 1⟩ = 1 := by
    simp [Vec3.length, Vec3.dot]
  have h2 : ¬((0 : ℝ) = 0 ∧ (1 : ℝ) = 0) := by norm_num
  exact ⟨⟨h1, h2⟩, C2_round_trip ⟨0, 0, 1⟩ h1 h2⟩

/-- C3: evaluation of the per-camera sync step at a camera whose raw
`LookTransform` differs from its current scene transform. With no
`Smoother`, and likewise with a disabled one, `look_transform_system`
leaves the scene transform untouched (the `_ => ()` arm) instead of
writing the raw viewpoint through the `LookTransform`-to-`Transform`
conversion (here instantiated with `id`). -/
theorem C3_sync_not_written_without_enabled_smoother :
    look_transform_system_step id
        (LookTransform.new ⟨1, 0, 0⟩ Vec3.zero Vec3.unitY)
        (LookTransform.new ⟨5, 5, 5⟩ Vec3.zero Vec3.unitY) none =
      (LookTransform.new ⟨5, 5, 5⟩ Vec3.zero Vec3.unitY, none) ∧
    (look_transform_system_step id
        (LookTransform.new ⟨1, 0, 0⟩ Vec3.zero Vec3.unitY)
        (LookTransform.new ⟨5, 5, 5⟩ Vec3.zero Vec3.unitY)
        (some { Smoother.default with enabled := false })).1 =
      LookTransform.new ⟨5, 5, 5⟩ Vec3.zero Vec3.unitY ∧
    LookTransform.new ⟨5, 5, 5⟩ Vec3.zero Vec3.unitY ≠
      id (LookTransform.new ⟨1, 0, 0⟩ Vec3.zero Vec3.unitY) := by
  refine ⟨rfl, by simp [look_transform_system_step], ?_⟩
  intro h
  have := congrArg (fun t => t.eye.x) h
  norm_num [LookTransform.new] at this

/-- C4: the `on_controller_enabled_changed` system written in
`controllers.rs` never touches the paired `Smoother` (it assigns
`look_tfm.enabled`, a field `LookTransform` does not even have), so a
controller `enabled` change does not reach the `Smoother` and the two
flags can disagree; the crate-private `Smoother::set_enabled` — which the
claim describes and which no live code calls — does store the flag and
reset the previous filtered value on enable. -/
theorem C4_enabled_propagation_never_reaches_smoother :
    (∀ (e : Bool) (look : LookTransformWithEnabled) (sm : Smoother),
        (on_controller_enabled_changed_step e look sm).2 = sm) ∧
      (∀ sm : Smoother,
        (sm.set_enabled true).lerp_tfm = none ∧
          ∀ e, (sm.set_enabled e).enabled = e) ∧
      (on_controller_enabled_changed_step false
          ⟨LookTransform.default, true⟩
          { Smoother.new 0.5 with enabled := true }).2.enabled = true := by
  refine ⟨fun _ _ _ => rfl, fun sm => ⟨?_, fun e => ?_⟩, rfl⟩
  · simp [Smoother.set_enabled, Smoother.reset]
  · cases e <;> simp [Smoother.set_enabled, Smoother.reset]

/-- C5: `Smoother::new` starts with no stored previous value, so its first
`smooth_transform` call returns the raw input exactly; but
`Smoother::default` starts with `Some(LookTransform::default())`, so on a
default-constructed smoother the first call blends the raw input with the
origin transform (raw eye x `1` yields `0.1`, a startup transient). -/
theorem C5_first_smooth_call :
    (∀ (w : ℝ) (raw : LookTransform), ((Smoother.new w).smooth_transform raw).1 = raw) ∧
      (Smoother.default.smooth_transform
          (LookTransform.new ⟨1, 0, 0⟩ ⟨1, 0, 0⟩ Vec3.unitY)).1.eye.x = 0.1 ∧
      (0.1 : ℝ) ≠ 1 := by
  refine ⟨fun w raw => ?_, ?_, by norm_num⟩
  · ext <;> simp [Smoother.smooth_transform, Smoother.new, vec3_smul_def, vec3_add_def] <;> ring
  · norm_num [Smoother.smooth_transform, Smoother.default, LookTransform.default,
      LookTransform.new, vec3_smul_def, vec3_add_def, Vec3.zero]

theorem vec3_length_smul (r : ℝ) (v : Vec3) : (r • v).length = |r| * v.length := by
  simp only [Vec3.length, vec3_smul_def, Vec3.dot]
  rw [show r * v.x * (r * v.x) + r * v.y * (r * v.y) + r * v.z * (r * v.z) =
    r ^ 2 * (v.x * v.x + v.y * v.y + v.z * v.z) by ring]
  rw [Real.sqrt_mul (sq_nonneg r), Real.sqrt_sq_eq_abs]

theorem zero_mem_pitch_Icc : (0 : ℝ) ∈ Set.Icc pitch_lo pitch_hi := by
  have h := Real.pi_gt_three
  constructor <;> simp only [pitch_lo, pitch_hi, up_eps] <;> linarith

theorem set_pitch_pitch_of_mem (a : LookAngles) {p : ℝ}
    (h : p ∈ Set.Icc pitch_lo pitch_hi) : (a.set_pitch p).pitch = p := by
  have h1 : min p (π / 2 - up_eps) = p := min_eq_left h.2
  have h2 : max p (-(π / 2) + up_eps) = p := max_eq_left h.1
  simp only [LookAngles.set_pitch, h1, h2]

theorem rustFmod_zero (b : ℝ) : rustFmod 0 b = 0 := by
  simp [rustFmod, rustTrunc]

theorem yaw_and_pitch_from_vector_unitZ :
    yaw_and_pitch_from_vector ⟨0, 0, 1⟩ = (0, 0) := by
  have hne : (⟨0, 0, 1⟩ : Vec3) ≠ Vec3.zero := by
    intro h
    have := congrArg Vec3.z h
    norm_num [Vec3.zero] at this
  simp [yaw_and_pitch_from_vector, hne, Vec3.angle_between, Vec3.dot,
    Vec3.unitZ, Vec3.unitY, Real.sqrt_one, Real.arccos_one]

theorem from_vector_unitZ : LookAngles.from_vector ⟨0, 0, 1⟩ = ⟨0, 0⟩ := by
  rw [LookAngles.from_vector, LookAngles.set_direction,
    yaw_and_pitch_from_vector_unitZ]
  ext
  · simp [LookAngles.set_pitch, LookAngles.set_yaw, LookAngles.default, rustFmod_zero]
  · exact set_pitch_pitch_of_mem (LookAngles.default.set_yaw 0) zero_mem_pitch_Icc

theorem unit_vector_yaw_zero_pitch_zero :
    (⟨0, 0⟩ : LookAngles).unit_vector = ⟨0, 0, 1⟩ := by
  rw [LookAngles.unit_vector_eq]
  norm_num

theorem not_looking_up_zero : ¬(⟨0, 0⟩ : LookAngles).is_looking_up :=
  LookAngles.not_looking_up_of_pitch_mem zero_mem_pitch_Icc

theorem look_direction_unitZ (up : Vec3) :
    (LookTransform.new ⟨0, 0, 0⟩ ⟨0, 0, 1⟩ up).look_direction = some ⟨0, 0, 1⟩ := by
  have hsub : ((⟨0, 0, 1⟩ : Vec3) - ⟨0, 0, 0⟩) = (⟨0, 0, 1⟩ : Vec3) := by
    ext <;> norm_num [vec3_sub_def]
  have hne : (⟨0, 0, 1⟩ : Vec3) ≠ Vec3.zero := by
    intro h
    have := congrArg Vec3.z h
    norm_num [Vec3.zero] at this
  rw [LookTransform.look_direction, LookTransform.new, hsub, Vec3.tryNormalize,
    if_neg hne]
  have hlen : Vec3.length ⟨0, 0, 1⟩ = 1 := by
    simp [Vec3.length, Vec3.dot]
  rw [hlen]
  congr 1
  ext <;> norm_num [vec3_smul_def]

theorem look_direction_none_of_eq {t : LookTransform} (h : t.target = t.eye) :
    t.look_direction = none := by
  rw [LookTransform.look_direction, h]
  have hz : t.eye - t.eye = Vec3.zero := by
    ext <;> simp [vec3_sub_def, Vec3.zero]
  rw [hz, Vec3.tryNormalize, if_pos rfl]

/-- C6 counterexample: on a camera whose look vector has zero length, the
FPS controller's enabled update hits `.unwrap()` on `None` and panics
(modelled as `none`) instead of skipping the frame without mutation. -/
theorem C6_counterexample_fps_panics :
    fps.control_system_step fps.FpsCameraController.default []
        (LookTransform.new Vec3.zero Vec3.zero Vec3.unitY) = none ∧
      fps.control_system_step fps.FpsCameraController.default []
          (LookTransform.new Vec3.zero Vec3.zero Vec3.unitY) ≠
        some (LookTransform.new Vec3.zero Vec3.zero Vec3.unitY) := by
  have hld : (LookTransform.new Vec3.zero Vec3.zero Vec3.unitY).look_direction = none :=
    look_direction_none_of_eq rfl
  have h1 : fps.control_system_step fps.FpsCameraController.default []
      (LookTransform.new Vec3.zero Vec3.zero Vec3.unitY) = none := by
    simp [fps.control_system_step, fps.FpsCameraController.default, hld]
  exact ⟨h1, by rw [h1]; simp⟩

/-- C6 amended: `look_direction` returns an explicit `None` on a
zero-length look vector, and the unreal controller then skips the frame
with no mutation; but the fps and orbit controllers unwrap the `None` and
panic. -/
theorem C6_degenerate_direction (t : LookTransform) (h : t.target = t.eye) :
    t.look_direction = none ∧
      (∀ (c : unreal.UnrealCameraController) (evs : List unreal.ControlEvent),
        c.enabled = true → unreal.control_system_step c evs t = some t) ∧
      (∀ (c : fps.FpsCameraController) (evs : List fps.ControlEvent),
        c.enabled = true → fps.control_system_step c evs t = none) ∧
      (∀ (dt : ℝ) (scene_rotation : Vec3 → Vec3) (is_orthographic : Bool)
          (evs : List orbit.ControlEvent) (sc : ℝ),
        orbit.control_system_step dt scene_rotation is_orthographic evs ⟨t, sc⟩ = none) := by
  have hld : t.look_direction = none := look_direction_none_of_eq h
  refine ⟨hld, fun c evs hc => ?_, fun c evs hc => ?_, fun dt r o evs sc => ?_⟩
  · simp [unreal.control_system_step, hc, hld]
  · simp [fps.control_system_step, hc, hld]
  · simp [orbit.control_system_step, hld]

/-- Witness for C6 at the concrete degenerate transform with
`eye = target = 0` and the default controllers. -/
theorem C6_degenerate_direction_witness :
    ((LookTransform.new Vec3.zero Vec3.zero Vec3.unitY).target =
        (LookTransform.new Vec3.zero Vec3.zero Vec3.unitY).eye) ∧
      (LookTransform.new Vec3.zero Vec3.zero Vec3.unitY).look_direction = none ∧
      unreal.control_system_step unreal.UnrealCameraController.default []
          (LookTransform.new Vec3.zero Vec3.zero Vec3.unitY) =
        some (LookTransform.new Vec3.zero Vec3.zero Vec3.unitY) ∧
      orbit.control_system_step 1 id false []
          ⟨LookTransform.new Vec3.zero Vec3.zero Vec3.unitY, 1⟩ = none := by
  have h := C6_degenerate_direction (LookTransform.new Vec3.zero Vec3.zero Vec3.unitY) rfl
  exact ⟨rfl, h.1, h.2.1 unreal.UnrealCameraController.default [] rfl, h.2.2.2 1 id false [] 1⟩

/-- C7 amended: with the W key held, the FPS input map emits
`TranslateEye(translate_sensitivity * Z)` — no frame-time factor exists in
this controller — and each `TranslateEye` event moves the eye by the event
delta resolved along the yaw-only local axes, with the target recomputed
from the unchanged look angles. -/
theorem C7_fps_translate_no_dt :
    (∀ c : fps.FpsCameraController, c.enabled = true →
      fps.default_input_map c [] ⟨true, false, false, false, false, false⟩ =
        ([fps.ControlEvent.Rotate (c.mouse_rotate_sensitivity * Vec2.zero),
          fps.ControlEvent.TranslateEye (c.translate_sensitivity • Vec3.unitZ)], [])) ∧
    ∀ c : fps.FpsCameraController, c.enabled = true →
      ∀ (t : LookTransform) (lv : Vec3), t.look_direction = some lv →
      ∀ delta : Vec3,
      ∃ t', fps.control_system_step c [fps.ControlEvent.TranslateEye delta] t = some t' ∧
        t'.eye = t.eye +
          (delta.x • mat3_from_rotation_y (LookAngles.from_vector lv).yaw Vec3.unitX +
           delta.y • mat3_from_rotation_y (LookAngles.from_vector lv).yaw Vec3.unitY +
           delta.z • mat3_from_rotation_y (LookAngles.from_vector lv).yaw Vec3.unitZ) ∧
        t'.target = t'.eye +
          (t.target - t'.eye).length • (LookAngles.from_vector lv).unit_vector ∧
        t'.up = t.up := by
  constructor
  · intro c hc
    simp [fps.default_input_map, fps.key_dirs, hc]
  · intro c hc t lv hld delta
    have hguard := LookAngles.not_looking_up_of_pitch_mem
      (LookAngles.from_vector_pitch_mem lv)
    have hstep : fps.control_system_step c [fps.ControlEvent.TranslateEye delta] t =
        some { eye := t.eye +
                 (delta.x • mat3_from_rotation_y (LookAngles.from_vector lv).yaw Vec3.unitX +
                  delta.y • mat3_from_rotation_y (LookAngles.from_vector lv).yaw Vec3.unitY +
                  delta.z • mat3_from_rotation_y (LookAngles.from_vector lv).yaw Vec3.unitZ),
               target := (t.eye +
                 (delta.x • mat3_from_rotation_y (LookAngles.from_vector lv).yaw Vec3.unitX +
                  delta.y • mat3_from_rotation_y (LookAngles.from_vector lv).yaw Vec3.unitY +
                  delta.z • mat3_from_rotation_y (LookAngles.from_vector lv).yaw Vec3.unitZ)) +
                 (t.target - (t.eye +
                   (delta.x • mat3_from_rotation_y (LookAngles.from_vector lv).yaw Vec3.unitX +
                    delta.y • mat3_from_rotation_y (LookAngles.from_vector lv).yaw Vec3.unitY +
                    delta.z • mat3_from_rotation_y (LookAngles.from_vector lv).yaw Vec3.unitZ))).length •
                   (LookAngles.from_vector lv).unit_vector,
               up := t.up } := by
      simp [fps.control_system_step, hc, hld, fps.apply_event, hguard,
        LookAngles.get_yaw, LookTransform.radius]
    exact ⟨_, hstep, rfl, rfl, rfl⟩

/-- Witness for C7 at the default controller and a camera looking down the
z axis. -/
theorem C7_fps_translate_no_dt_witness :
    (fps.FpsCameraController.default.enabled = true ∧
      (LookTransform.new ⟨0, 0, 0⟩ ⟨0, 0, 1⟩ Vec3.unitY).look_direction =
        some ⟨0, 0, 1⟩) ∧
    fps.default_input_map fps.FpsCameraController.default []
        ⟨true, false, false, false, false, false⟩ =
      ([fps.ControlEvent.Rotate
          (fps.FpsCameraController.default.mouse_rotate_sensitivity * Vec2.zero),
        fps.ControlEvent.TranslateEye
          (fps.FpsCameraController.default.translate_sensitivity • Vec3.unitZ)], []) ∧
    ∃ t', fps.control_system_step fps.FpsCameraController.default
        [fps.ControlEvent.TranslateEye ⟨0, 0, 2⟩]
        (LookTransform.new ⟨0, 0, 0⟩ ⟨0, 0, 1⟩ Vec3.unitY) = some t' ∧
      t'.eye = (LookTransform.new ⟨0, 0, 0⟩ ⟨0, 0, 1⟩ Vec3.unitY).eye +
        ((0 : ℝ) • mat3_from_rotation_y (LookAngles.from_vector ⟨0, 0, 1⟩).yaw Vec3.unitX +
         (0 : ℝ) • mat3_from_rotation_y (LookAngles.from_vector ⟨0, 0, 1⟩).yaw Vec3.unitY +
         (2 : ℝ) • mat3_from_rotation_y (LookAngles.from_vector ⟨0, 0, 1⟩).yaw Vec3.unitZ) := by
  have h1 : fps.FpsCameraController.default.enabled = true := rfl
  have h2 := look_direction_unitZ Vec3.unitY
  refine ⟨⟨h1, h2⟩, (C7_fps_translate_no_dt.1 fps.FpsCameraController.default h1 :), ?_⟩
  obtain ⟨t', hstep, heye, -, -⟩ :=
    C7_fps_translate_no_dt.2 fps.FpsCameraController.default h1
      (LookTransform.new ⟨0, 0, 0⟩ ⟨0, 0, 1⟩ Vec3.unitY) ⟨0, 0, 1⟩ h2 ⟨0, 0, 2⟩
  exact ⟨t', hstep, heye⟩

/-- C7 counterexample: at translate sensitivity `2.0` with only the W key
held, the emitted forward event is `TranslateEye(2 * Z)` (no `dt` factor
exists in `fps.rs`), and applying it moves the eye `2` units along the
forward axis — not the `0.032 = 2.0 * 0.016` units the claim computes. -/
theorem C7_counterexample_no_dt_scaling :
    fps.default_input_map
        { fps.FpsCameraController.default with translate_sensitivity := 2 } []
        ⟨true, false, false, false, false, false⟩ =
      ([fps.ControlEvent.Rotate ⟨0, 0⟩,
        fps.ControlEvent.TranslateEye ⟨0, 0, 2⟩], []) ∧
    (∃ t', fps.control_system_step
        { fps.FpsCameraController.default with translate_sensitivity := 2 }
        [fps.ControlEvent.TranslateEye ⟨0, 0, 2⟩]
        (LookTransform.new ⟨0, 0, 0⟩ ⟨0, 0, 1⟩ Vec3.unitY) = some t' ∧
      t'.eye = ⟨0, 0, 2⟩ ∧
      (t'.eye - (LookTransform.new ⟨0, 0, 0⟩ ⟨0, 0, 1⟩ Vec3.unitY).eye).length = 2) ∧
    (2 : ℝ) ≠ 0.032 := by
  refine ⟨?_, ?_, by norm_num⟩
  · simp [fps.default_input_map, fps.key_dirs, fps.FpsCameraController.default]
    constructor
    · ext <;> norm_num [vec2_mul_def, Vec2.zero]
    · ext <;> norm_num [vec3_smul_def, Vec3.unitZ]
  · have hld := look_direction_unitZ Vec3.unitY
    have hstep : fps.control_system_step
        { fps.FpsCameraController.default with translate_sensitivity := 2 }
        [fps.ControlEvent.TranslateEye ⟨0, 0, 2⟩]
        (LookTransform.new ⟨0, 0, 0⟩ ⟨0, 0, 1⟩ Vec3.unitY) =
        some ⟨⟨0, 0, 2⟩, ⟨0, 0, 3⟩, Vec3.unitY⟩ := by
      simp only [fps.control_system_step, fps.FpsCameraController.default, hld,
        from_vector_unitZ, List.foldl_cons, List.foldl_nil, fps.apply_event,
        LookAngles.get_yaw, not_looking_up_zero, if_true, if_false]
      congr 1
      ext <;>
        norm_num [LookTransform.new, LookTransform.radius,
          unit_vector_yaw_zero_pitch_zero, mat3_from_rotation_y, Vec3.unitX,
          Vec3.unitY, Vec3.unitZ, vec3_smul_def, vec3_add_def, vec3_sub_def,
          Vec3.length, Vec3.dot, Real.sqrt_one]
    refine ⟨⟨⟨0, 0, 2⟩, ⟨0, 0, 3⟩, Vec3.unitY⟩, hstep, rfl, ?_⟩
    have h4 : Real.sqrt 4 = 2 := by
      rw [show (4 : ℝ) = 2 ^ 2 by norm_num, Real.sqrt_sq]
      norm_num
    norm_num [LookTransform.new, vec3_sub_def, Vec3.length, Vec3.dot, h4]

/-- C8: in the orbit controller's non-orthographic branch, a frame whose
only event is `Zoom s` leaves the target and scale unchanged and
repositions the eye so that the new radius is exactly
`(s * radius).min(1000000.0).max(0.001)`. -/
theorem C8_orbit_zoom_clamp (dt : ℝ) (scene_rotation : Vec3 → Vec3)
    (st : orbit.OrbitState) (s : ℝ) (ld : Vec3)
    (h : st.transform.look_direction = some ld) :
    ∃ st', orbit.control_system_step dt scene_rotation false
        [orbit.ControlEvent.Zoom s] st = some st' ∧
      st'.transform.target = st.transform.target ∧
      st'.scale = st.scale ∧
      st'.transform.radius = max (min (s * st.transform.radius) 1000000) 0.001 := by
  have hguard := LookAngles.not_looking_up_of_pitch_mem
    (LookAngles.from_vector_pitch_mem (-ld))
  have hstep : orbit.control_system_step dt scene_rotation false
      [orbit.ControlEvent.Zoom s] st =
      some { transform :=
               { st.transform with eye := st.transform.target +
                   (max (min (1 * s * st.transform.radius) 1000000) 0.001) •
                     (LookAngles.from_vector (-ld)).unit_vector },
             scale := st.scale } := by
    simp [orbit.control_system_step, h, orbit.apply_event, hguard,
      LookTransform.radius]
  refine ⟨_, hstep, rfl, rfl, ?_⟩
  show LookTransform.radius _ = _
  rw [LookTransform.radius]
  have hsub : st.transform.target -
      (st.transform.target +
        (max (min (1 * s * st.transform.radius) 1000000) 0.001) •
          (LookAngles.from_vector (-ld)).unit_vector) =
      (-(max (min (1 * s * st.transform.radius) 1000000) 0.001)) •
        (LookAngles.from_vector (-ld)).unit_vector := by
    ext <;> simp [vec3_sub_def, vec3_add_def, vec3_smul_def]
  rw [hsub, vec3_length_smul, LookAngles.unit_vector_length, mul_one, abs_neg,
    abs_of_pos, one_mul]
  exact lt_of_lt_of_le (by norm_num) (le_max_right _ _)

/-- Witness for C8 at radius `1`: `Zoom 1e9` caps the radius at
`1_000_000` and `Zoom 1e-9` floors it at `0.001`. -/
theorem C8_orbit_zoom_clamp_witness :
    (LookTransform.new ⟨0, 0, 0⟩ ⟨0, 0, 1⟩ Vec3.unitY).look_direction =
      some ⟨0, 0, 1⟩ ∧
    (∃ st', orbit.control_system_step 1 id false [orbit.ControlEvent.Zoom 1e9]
        ⟨LookTransform.new ⟨0, 0, 0⟩ ⟨0, 0, 1⟩ Vec3.unitY, 1⟩ = some st' ∧
      st'.transform.radius = 1000000) ∧
    ∃ st', orbit.control_system_step 1 id false [orbit.ControlEvent.Zoom 1e-9]
        ⟨LookTransform.new ⟨0, 0, 0⟩ ⟨0, 0, 1⟩ Vec3.unitY, 1⟩ = some st' ∧
      st'.transform.radius = 0.001 := by
  have hld := look_direction_unitZ Vec3.unitY
  have hrad : (LookTransform.new ⟨0, 0, 0⟩ ⟨0, 0, 1⟩ Vec3.unitY).radius = 1 := by
    norm_num [LookTransform.radius, LookTransform.new, vec3_sub_def,
      Vec3.length, Vec3.dot, Real.sqrt_one]
  refine ⟨hld, ?_, ?_⟩
  · obtain ⟨st', h1, -, -, h4⟩ :=
      C8_orbit_zoom_clamp 1 id ⟨LookTransform.new ⟨0, 0, 0⟩ ⟨0, 0, 1⟩ Vec3.unitY, 1⟩
        1e9 ⟨0, 0, 1⟩ hld
    refine ⟨st', h1, ?_⟩
    rw [h4]
    show max (min (1e9 * LookTransform.radius _) 1000000) 0.001 = 1000000
    rw [hrad]
    norm_num [min_def, max_def]
  · obtain ⟨st', h1, -, -, h4⟩ :=
      C8_orbit_zoom_clamp 1 id ⟨LookTransform.new ⟨0, 0, 0⟩ ⟨0, 0, 1⟩ Vec3.unitY, 1⟩
        1e-9 ⟨0, 0, 1⟩ hld
    refine ⟨st', h1, ?_⟩
    rw [h4]
    show max (min (1e-9 * LookTransform.radius _) 1000000) 0.001 = 0.001
    rw [hrad]
    norm_num [min_def, max_def]

/-- C9 counterexample: with a disabled FPS controller the input map emits
no events, but it returns before iterating the frame's raw mouse-motion
events, so they are left pending instead of being discarded. -/
theorem C9_counterexample_raw_events_not_drained :
    fps.default_input_map { fps.FpsCameraController.default with enabled := false }
        [⟨1, 2⟩] ⟨false, false, false, false, false, false⟩ = ([], [⟨1, 2⟩]) ∧
      ([(⟨1, 2⟩ : Vec2)] : List Vec2) ≠ [] := by
  exact ⟨by simp [fps.default_input_map], by simp⟩

/-- C9 amended: a disabled FPS controller's input map emits zero control
events but leaves the raw mouse-motion events unread rather than
discarding them, and the disabled update drains the control events while
leaving the viewpoint exactly unchanged. -/
theorem C9_disabled_controller (c : fps.FpsCameraController)
    (hc : c.enabled = false) :
    (∀ (raw : List Vec2) (k : fps.KeyboardState),
      fps.default_input_map c raw k = ([], raw)) ∧
      ∀ (evs : List fps.ControlEvent) (t : LookTransform),
        fps.control_system_step c evs t = some t := by
  refine ⟨fun raw k => ?_, fun evs t => ?_⟩ <;>
    simp [fps.default_input_map, fps.control_system_step, hc]

/-- Witness for C9 at a concretely disabled controller. -/
theorem C9_disabled_controller_witness :
    ({ fps.FpsCameraController.default with enabled := false }.enabled = false) ∧
      fps.default_input_map
          { fps.FpsCameraController.default with enabled := false } [⟨3, 4⟩]
          ⟨true, true, true, true, true, true⟩ = ([], [⟨3, 4⟩]) ∧
      fps.control_system_step
          { fps.FpsCameraController.default with enabled := false } []
          LookTransform.default = some LookTransform.default := by
  have h := C9_disabled_controller
    { fps.FpsCameraController.default with enabled := false } rfl
  exact ⟨rfl, h.1 [⟨3, 4⟩] ⟨true, true, true, true, true, true⟩,
    h.2 [] LookTransform.default⟩

/-- C10 counterexample: `set_lag_weight 1.5` stores the out-of-range lag
weight unchanged — the configuration setter performs no rejection, raises
no error and does no clamping. -/
theorem C10_counterexample_out_of_range_accepted :
    ((Smoother.new 0.9).set_lag_weight 1.5).lag_weight = 1.5 ∧ ¬((1.5 : ℝ) < 1) :=
  ⟨rfl, by norm_num⟩

/-- C10 amended: `set_lag_weight` stores any value without validation; the
range `0 ≤ w < 1` is checked only by the `debug_assert!`s inside
`smooth_transform`, at use time (and the sensitivity fields are plain
public fields that no code validates). -/
theorem C10_lag_weight_not_validated_at_set_time :
    ∀ (sm : Smoother) (w : ℝ),
      (sm.set_lag_weight w).lag_weight = w ∧
        (Smoother.smooth_transform_debug_asserts (sm.set_lag_weight w) ↔
          0 ≤ w ∧ w < 1) :=
  fun _ _ => ⟨rfl, Iff.rfl⟩
